import Mathlib

/-!
Shallow embedding of the SQLite-backed leaderboard store
(`src/tools/leaderboard/sqlite-store.mjs`) and the payload normalizer
(`src/tools/leaderboard/entry-schema.mjs`, whose source is bundled with the
store file).

Modelling conventions:
* The SQLite table `leaderboard_scores` is a `List Row` (a row is a surrogate
  `id : Nat` plus the eleven semantic fields); `AUTOINCREMENT` is an explicit
  `nextId` counter.  The `leaderboard_meta` table is only ever used for the
  single key `legacy-json-migration-complete`, so it is modelled as the
  `Option String` value stored under that key.
* JavaScript numbers are modelled as `Rat` where fractional values can occur
  (JSON numbers, `score_multiplier REAL`) and as `Int` for the integer columns
  (`time_ms`, `attempts`, `score_value INTEGER`).
* Parsed JSON documents are a `Json` inductive; a missing legacy file is
  `Option.none`.  Fallible paths return `Except String`, the string being the
  thrown message.
* The better-sqlite3 `transaction` wrapper is modelled by a failure oracle
  `failAt : Option (Nat × String)`: `some (k, msg)` means the k-th primitive
  statement inside the migration transaction (inserts, then the trim, then the
  flag upsert) throws `msg`; the wrapper then rolls the database back to the
  pre-transaction state, which is the engine guarantee the source relies on.
-/

namespace MB

/-- Parsed JSON values (`JSON.parse` output): null, booleans, numbers,
strings, arrays and objects. -/
inductive Json where
  | null : Json
  | bool : Bool → Json
  | num : Rat → Json
  | str : String → Json
  | arr : List Json → Json
  | obj : List (String × Json) → Json

/-- Property access `v[p]` on a non-undefined JavaScript value: objects look
the key up, every other non-null value yields `undefined` (`none`) for the
property names used by this code.  Access on `null` throws and is handled at
each call site, mirroring where the source would throw a TypeError. -/
def jsProp (v : Json) (p : String) : Option Json :=
  match v with
  | Json.obj kvs => kvs.lookup p
  | _ => none

/-- The whitespace trim applied by `String.prototype.trim`. -/
def jsTrim (s : String) : String :=
  String.mk (((s.data.dropWhile Char.isWhitespace).reverse.dropWhile
    Char.isWhitespace).reverse)

/-- The rounding of `Math.round`: half-way cases round toward positive
infinity, i.e. `Math.round x = ⌊x + 1/2⌋`.  Computed on the numerator and
denominator — `⌊n/d + 1/2⌋ = ⌊(2n + d) / (2d)⌋` for `d > 0` — so that closed
instances evaluate without rational normalisation. -/
def jsRound (q : Rat) : Int :=
  Int.fdiv (2 * q.num + (q.den : Int)) (2 * (q.den : Int))

/-- Decimal digits of the fractional part of a rational in `[0, 1)`, stopping
at a zero remainder or after the fuel runs out. -/
def fracDigits : Nat → Rat → String
  | 0, _ => ""
  | n + 1, r =>
    if r = 0 then ""
    else
      let d := Rat.floor (r * 10)
      toString d ++ fracDigits n (r * 10 - (d : Rat))

/-- JavaScript `String(x)` for a number `x`, restricted to the values this
program produces: integers print without a decimal point, terminating decimals
print their digits.  (JavaScript shortest-round-trip float printing is
approximated by truncating a non-terminating expansion at 20 digits; no
theorem below depends on that case.) -/
def jsRatToString (q : Rat) : String :=
  if q.den = 1 then toString q.num
  else
    let sgn := if q < 0 then "-" else ""
    let a := if q < 0 then -q else q
    let ip := Rat.floor a
    sgn ++ toString ip ++ "." ++ fracDigits 20 (a - (ip : Rat))

/-- A normalised leaderboard entry: the eleven semantic fields of a
`leaderboard_scores` row (`mapRowToEntry` shape). -/
structure Entry where
  playerName : String
  timeMs : Int
  attempts : Int
  difficultyId : String
  difficultyLabel : String
  emojiSetId : String
  emojiSetLabel : String
  scoreMultiplier : Rat
  scoreValue : Int
  isAutoDemo : Bool
  createdAt : String
deriving DecidableEq, Repr

/-- A stored row: surrogate `id INTEGER PRIMARY KEY AUTOINCREMENT` plus the
entry fields. -/
structure Row where
  id : Nat
  entry : Entry
deriving DecidableEq, Repr

/-- Constant `MIGRATION_INCOMPLETE_FLAG`. -/
def MIGRATION_INCOMPLETE_FLAG : Int := 0

/-- Constant `MIGRATION_COMPLETE_FLAG`. -/
def MIGRATION_COMPLETE_FLAG : Int := 1

/-- Constant `LEGACY_MIGRATION_STATE_KEY`. -/
def LEGACY_MIGRATION_STATE_KEY : String := "legacy-json-migration-complete"

/-- Constant `DEFAULT_MAX_STORED_ENTRIES`. -/
def DEFAULT_MAX_STORED_ENTRIES : Nat := 100

/-- Constant `DEFAULT_EMOJI_SET_LABEL` of the entry normalizer. -/
def DEFAULT_EMOJI_SET_LABEL : String := "Unknown Pack"

/-- State of one `SqliteLeaderboardStore` instance: the configured retention
cap, the `leaderboard_scores` table, the `AUTOINCREMENT` counter, the
`leaderboard_meta` value stored under `LEGACY_MIGRATION_STATE_KEY`, and the
in-process `cachedMigrationComplete` field. -/
structure Store where
  maxStoredEntries : Nat
  rows : List Row
  nextId : Nat
  migrationMeta : Option String
  cachedMigrationComplete : Bool
deriving DecidableEq, Repr

/-- The store produced by the constructor over a fresh database file: empty
table, `AUTOINCREMENT` starting at 1, no meta row, and therefore
`cachedMigrationComplete = (getMigrationState() === MIGRATION_COMPLETE_FLAG) =
false`. -/
def openFreshStore (cap : Nat) : Store :=
  { maxStoredEntries := cap
    rows := []
    nextId := 1
    migrationMeta := none
    cachedMigrationComplete := false }

/-- Function `mapRowToEntry`: projects a stored row onto its entry fields. -/
def mapRowToEntry (r : Row) : Entry :=
  r.entry

/-- Function `createEntryIdentity`: the pipe-joined concatenation of the
eleven semantic fields (the runtime field-count assertion is statically
satisfied by this eleven-element list literal). -/
def createEntryIdentity (entry : Entry) : String :=
  String.intercalate "|"
    [ entry.playerName
    , toString entry.timeMs
    , toString entry.attempts
    , entry.difficultyId
    , entry.difficultyLabel
    , entry.emojiSetId
    , entry.emojiSetLabel
    , jsRatToString entry.scoreMultiplier
    , toString entry.scoreValue
    , if entry.isAutoDemo then "true" else "false"
    , entry.createdAt ]

/-- The total order `ORDER BY created_at DESC, id DESC` used by the read, the
trim rank and the recency index: `rowLe a b` says `a` sorts no later than `b`
(`a` is at least as recent).  SQLite compares the `created_at` TEXT column
bytewise (BINARY collation), which on UTF-8 text agrees with the
codepoint-lexicographic order on the character list `createdAt.data`. -/
def rowLe (a b : Row) : Prop :=
  b.entry.createdAt.data < a.entry.createdAt.data ∨
    (b.entry.createdAt.data = a.entry.createdAt.data ∧ b.id ≤ a.id)

instance : DecidableRel rowLe := by
  unfold rowLe
  exact fun a b => inferInstance

instance : IsTotal Row rowLe := by
  constructor
  intro a b
  rcases lt_trichotomy a.entry.createdAt.data b.entry.createdAt.data
    with h | h | h
  · exact Or.inr (Or.inl h)
  · rcases Nat.le_total a.id b.id with hid | hid
    · exact Or.inr (Or.inr ⟨h, hid⟩)
    · exact Or.inl (Or.inr ⟨h.symm, hid⟩)
  · exact Or.inl (Or.inl h)

instance : IsTrans Row rowLe := by
  constructor
  intro a b c hab hbc
  rcases hab with hab | ⟨hab, hab2⟩
  · rcases hbc with hbc | ⟨hbc, _⟩
    · exact Or.inl (lt_trans hbc hab)
    · exact Or.inl (hbc ▸ hab)
  · rcases hbc with hbc | ⟨hbc, hbc2⟩
    · exact Or.inl (hab ▸ hbc)
    · exact Or.inr ⟨hbc.trans hab, le_trans hbc2 hab2⟩

/-- The ranked order of `readTopEntriesStatement` and the `ranked` CTE of
`trimEntriesStatement`: all rows sorted by `(created_at DESC, id DESC)`. -/
def sortByRecency (rows : List Row) : List Row :=
  List.insertionSort rowLe rows

/-- Statement `trimEntriesStatement`: rank all rows by
`(created_at DESC, id DESC)` and delete every row whose rank exceeds the cap
(`DELETE ... WHERE id IN (SELECT id FROM ranked WHERE rank > ?)`). -/
def trimEntries (cap : Nat) (rows : List Row) : List Row :=
  let ranked := sortByRecency rows
  let doomedIds := (ranked.drop cap).map Row.id
  rows.filter (fun r => !(doomedIds.contains r.id))

/-- Statement `insertEntryStatement` (method `#insertEntry`): append one row
with the next surrogate id. -/
def insertEntry (s : Store) (e : Entry) : Store :=
  { s with rows := s.rows ++ [⟨s.nextId, e⟩], nextId := s.nextId + 1 }

/-- Method `writeEntry`: insert the entry, then trim to `maxStoredEntries`. -/
def writeEntry (s : Store) (e : Entry) : Store :=
  let s1 := insertEntry s e
  { s1 with rows := trimEntries s1.maxStoredEntries s1.rows }

/-- Method `readEntries`: run `readTopEntriesStatement` with the given limit
and map the rows through `mapRowToEntry`. -/
def readEntries (s : Store) (limit : Nat) : List Entry :=
  ((sortByRecency s.rows).take limit).map mapRowToEntry

/-- Evaluation of `parsed.entries` followed by the `Array.isArray` guard in
`migrateFromLegacyJson`.  On a `null` document the property access itself
throws a TypeError.  On an array document, `.entries` is the inherited
`Array.prototype.entries` method — not an array — so the guard falls back to
the empty list, as it does for every other non-object and for objects without
an `entries` array. -/
def entriesOfDoc : Json → Except String (List Json)
  | Json.null =>
    Except.error "TypeError: Cannot read properties of null (reading 'entries')"
  | Json.obj kvs =>
    Except.ok
      (match kvs.lookup "entries" with
       | some (Json.arr es) => es
       | _ => [])
  | _ => Except.ok []

/-- The identity set built from the `readAllEntriesStatement` scan: one
identity string per stored row (the JavaScript `Set` is modelled as the list
of already-added keys, queried with `contains`). -/
def storedIdentitySet (s : Store) : List String :=
  s.rows.map (fun r => createEntryIdentity (mapRowToEntry r))

/-- The dedup loop of `migrateFromLegacyJson`: walk the normalized entries in
order; skip an entry whose identity is already in the set, otherwise add its
identity to the set and keep the entry. -/
def dedupFilter (seen : List String) : List Entry → List Entry
  | [] => []
  | e :: rest =>
    if seen.contains (createEntryIdentity e) then dedupFilter seen rest
    else e :: dedupFilter (createEntryIdentity e :: seen) rest

/-- The `entriesToInsert` list computed by `migrateFromLegacyJson` from the
raw legacy entries: normalize each entry (dropping the ones whose `parseEntry`
call throws) and dedup against the stored identities and earlier batch
entries. -/
def migrationBatch (s : Store) (raws : List Json)
    (parseEntry : Json → Option Entry) : List Entry :=
  dedupFilter (storedIdentitySet s) (raws.filterMap parseEntry)

/-- The wrapped error thrown by the catch block inside the migration
transaction. -/
def wrapTxnError (msg : String) : String :=
  "[MEMORYBLOX] Legacy JSON → SQLite migration transaction failed. Inserted entries may have been rolled back. Original error: "
    ++ msg

/-- The committed effect of `migrateAndTrimTransaction` plus the cache update
that follows it: insert every batch entry in order, trim to
`maxStoredEntries`, upsert the meta row to `String(MIGRATION_COMPLETE_FLAG)`,
and set `cachedMigrationComplete`. -/
def commitMigration (s : Store) (batch : List Entry) : Store :=
  let s1 := batch.foldl insertEntry s
  { s1 with
    rows := trimEntries s1.maxStoredEntries s1.rows
    migrationMeta := some (toString MIGRATION_COMPLETE_FLAG)
    cachedMigrationComplete := true }

/-- Method `migrateFromLegacyJson`.  `file` is the parsed legacy document
(`none` when `fileExists` is false), `parseEntry` the normalizer callback
(`none` when it throws), and `failAt` the transaction failure oracle: the
transaction body runs `batch.length` inserts, one trim and one flag upsert,
so a failure injected at any step index `≤ batch.length + 1` makes the
transaction throw the wrapped error and roll back; the in-process cache is
then left untouched. -/
def migrateFromLegacyJson (s : Store) (file : Option Json)
    (parseEntry : Json → Option Entry) (failAt : Option (Nat × String)) :
    Store × Except String Nat :=
  if s.cachedMigrationComplete then (s, Except.ok 0)
  else
    match file with
    | none => (s, Except.ok 0)
    | some doc =>
      match entriesOfDoc doc with
      | Except.error e => (s, Except.error e)
      | Except.ok raws =>
        let batch := migrationBatch s raws parseEntry
        match failAt with
        | some (k, msg) =>
          if k ≤ batch.length + 1 then (s, Except.error (wrapTxnError msg))
          else (commitMigration s batch, Except.ok batch.length)
        | none => (commitMigration s batch, Except.ok batch.length)

/-- Function `parseNonNegativeInteger` of the entry normalizer, applied to a
property value: a non-number (including a missing property) is not finite and
yields NaN (`none`); a number is rounded and clamped to be non-negative. -/
def parseNonNegativeInteger (v : Option Json) : Option Int :=
  match v with
  | some (Json.num q) => some (max 0 (jsRound q))
  | _ => none

/-- String-typed payload field read: `typeof x === "string" ? x.trim() : ""`. -/
def strField (payload : Json) (k : String) : String :=
  match jsProp payload k with
  | some (Json.str s) => jsTrim s
  | _ => ""

/-- The `emojiSetLabel` computation: the trimmed payload value, or
`DEFAULT_EMOJI_SET_LABEL` when that is empty. -/
def emojiSetLabelField (payload : Json) : String :=
  let rawEmojiSetLabel := strField payload "emojiSetLabel"
  if rawEmojiSetLabel.length > 0 then rawEmojiSetLabel
  else DEFAULT_EMOJI_SET_LABEL

/-- The `invalidFields` list accumulated by `parseLeaderboardPayloadEntry`, in
source order. -/
def invalidFieldsOf (payload : Json) : List String :=
  (if (strField payload "playerName").length = 0 then ["playerName"] else [])
    ++ (if (strField payload "difficultyId").length = 0 then ["difficultyId"] else [])
    ++ (if (strField payload "difficultyLabel").length = 0 then ["difficultyLabel"] else [])
    ++ (if (strField payload "emojiSetId").length = 0 then ["emojiSetId"] else [])
    ++ (if (emojiSetLabelField payload).length = 0 then ["emojiSetLabel"] else [])
    ++ (if (parseNonNegativeInteger (jsProp payload "timeMs")).isNone then ["timeMs"] else [])
    ++ (if (parseNonNegativeInteger (jsProp payload "attempts")).isNone then ["attempts"] else [])

/-- The `createdAt` computation of the normalizer: the trimmed payload string
when `allowCreatedAt` is set and that string is non-empty, otherwise the
current time (`new Date().toISOString()`, passed in as `nowIso`). -/
def createdAtField (payload : Json) (allowCreatedAt : Bool) (nowIso : String) :
    String :=
  match jsProp payload "createdAt" with
  | some (Json.str s) =>
    if allowCreatedAt ∧ (jsTrim s).length > 0 then jsTrim s else nowIso
  | _ => nowIso

/-- The `scoreMultiplier` computation of the normalizer:
`Number.isFinite(x) ? Math.max(0, x) : 1`. -/
def scoreMultiplierField (payload : Json) : Rat :=
  match jsProp payload "scoreMultiplier" with
  | some (Json.num q) => max 0 q
  | _ => 1

/-- The `scoreValue` computation of the normalizer:
`Number.isFinite(x) ? Math.max(0, Math.round(x)) : 0`. -/
def scoreValueField (payload : Json) : Int :=
  match jsProp payload "scoreValue" with
  | some (Json.num q) => max 0 (jsRound q)
  | _ => 0

/-- The `isAutoDemo` computation of the normalizer: `x === true`. -/
def isAutoDemoField (payload : Json) : Bool :=
  match jsProp payload "isAutoDemo" with
  | some (Json.bool true) => true
  | _ => false

/-- The entry assembled by the success path of the normalizer.  The
`timeMs`/`attempts` defaults are unreachable when `invalidFieldsOf` is empty,
which is the only context in which this value is returned. -/
def assembledEntry (payload : Json) (allowCreatedAt : Bool) (nowIso : String) :
    Entry :=
  { playerName := strField payload "playerName"
    timeMs := (parseNonNegativeInteger (jsProp payload "timeMs")).getD 0
    attempts := (parseNonNegativeInteger (jsProp payload "attempts")).getD 0
    difficultyId := strField payload "difficultyId"
    difficultyLabel := strField payload "difficultyLabel"
    emojiSetId := strField payload "emojiSetId"
    emojiSetLabel := emojiSetLabelField payload
    scoreMultiplier := scoreMultiplierField payload
    scoreValue := scoreValueField payload
    isAutoDemo := isAutoDemoField payload
    createdAt := createdAtField payload allowCreatedAt nowIso }

/-- Function `parseLeaderboardPayloadEntry` of the entry normalizer.  A `null`
payload throws at the first property access; otherwise the entry is assembled
field by field and the call throws exactly when `invalidFields` is
non-empty. -/
def parseLeaderboardPayloadEntry (payload : Json) (allowCreatedAt : Bool)
    (nowIso : String) : Except String Entry :=
  match payload with
  | Json.null =>
    Except.error "TypeError: Cannot read properties of null (reading 'playerName')"
  | p =>
    if (invalidFieldsOf p).isEmpty then
      Except.ok (assembledEntry p allowCreatedAt nowIso)
    else
      Except.error
        ("Invalid score payload: missing or invalid "
          ++ String.intercalate ", " (invalidFieldsOf p) ++ ".")

/-- Modelled from the spec: the specification calls the stored creation
timestamp "a valid instant" in ISO-8601 form.  This predicate checks the
structural ISO-8601 date-time skeleton `YYYY-MM-DDTHH:MM:SS` that every valid
instant string starts with. -/
def specIsIso8601Instant (s : String) : Bool :=
  match s.data with
  | y1 :: y2 :: y3 :: y4 :: c1 :: m1 :: m2 :: c2 :: d1 :: d2 :: c3 ::
      h1 :: h2 :: c4 :: mi1 :: mi2 :: c5 :: s1 :: s2 :: _ =>
    y1.isDigit && y2.isDigit && y3.isDigit && y4.isDigit && (c1 == '-')
      && m1.isDigit && m2.isDigit && (c2 == '-') && d1.isDigit && d2.isDigit
      && (c3 == 'T') && h1.isDigit && h2.isDigit && (c4 == ':')
      && mi1.isDigit && mi2.isDigit && (c5 == ':') && s1.isDigit && s2.isDigit
  | _ => false

/-- Well-formedness of a store state, as guaranteed by SQLite for any real
database: surrogate ids are distinct and below the `AUTOINCREMENT` counter. -/
def WF (s : Store) : Prop :=
  (s.rows.map Row.id).Nodup ∧ ∀ r ∈ s.rows, r.id < s.nextId

instance (s : Store) : Decidable (WF s) := by
  unfold WF
  exact instDecidableAnd

/-- Flag `Array.isArray(parsed.entries)` success, i.e. whether the parsed
document is an object whose `entries` property is an array. -/
def hasEntriesArr : Json → Bool
  | Json.obj kvs =>
    match kvs.lookup "entries" with
    | some (Json.arr _) => true
    | _ => false
  | _ => false

/-- The `parseEntry` callback the migration receives in production: the entry
normalizer with `allowCreatedAt` enabled (a thrown error becomes `none`), at
a fixed wall-clock instant. -/
def parseForMigration (j : Json) : Option Entry :=
  (parseLeaderboardPayloadEntry j true "2024-03-03T03:03:03.000Z").toOption

/-- Concrete legacy payload used in examples. -/
def payloadAlice : Json := Json.obj
  [ ("playerName", Json.str "Alice"), ("difficultyId", Json.str "easy")
  , ("difficultyLabel", Json.str "Easy"), ("emojiSetId", Json.str "space")
  , ("emojiSetLabel", Json.str "Space"), ("timeMs", Json.num 1000)
  , ("attempts", Json.num 3), ("scoreMultiplier", Json.num 1)
  , ("scoreValue", Json.num 500)
  , ("createdAt", Json.str "2024-01-01T00:00:00.000Z") ]

/-- The entry `payloadAlice` normalizes to. -/
def entryAlice : Entry :=
  ⟨"Alice", 1000, 3, "easy", "Easy", "space", "Space", 1, 500, false,
    "2024-01-01T00:00:00.000Z"⟩

/-- Concrete legacy document holding one entry. -/
def docAlice : Json := Json.obj [("entries", Json.arr [payloadAlice])]

/-- The store state reached by migrating `docAlice` into a fresh store with a
retention cap of 5. -/
def storeAfterAlice : Store :=
  { maxStoredEntries := 5
    rows := [⟨1, entryAlice⟩]
    nextId := 2
    migrationMeta := some "1"
    cachedMigrationComplete := true }

/-- Concrete entry more recent than `entryAlice`. -/
def entryBravo : Entry :=
  ⟨"Bravo", 2500, 5, "hard", "Hard", "flags", "Flags", 1, 800, false,
    "2024-02-01T00:00:00.000Z"⟩

/-- A store with retention cap 1 already holding `entryBravo`. -/
def storeCapOne : Store :=
  { maxStoredEntries := 1
    rows := [⟨2, entryBravo⟩]
    nextId := 3
    migrationMeta := none
    cachedMigrationComplete := false }

/-- The store state reached by migrating `docAlice` into `storeCapOne`:
the imported older row is trimmed away again and the flag is set. -/
def storeCapOneMigrated : Store :=
  { maxStoredEntries := 1
    rows := [⟨2, entryBravo⟩]
    nextId := 4
    migrationMeta := some "1"
    cachedMigrationComplete := true }

/-- Concrete malformed legacy payload: it lacks a player name, so the
normalizer rejects it. -/
def payloadNoName : Json := Json.obj
  [ ("difficultyId", Json.str "easy"), ("difficultyLabel", Json.str "Easy")
  , ("emojiSetId", Json.str "space"), ("emojiSetLabel", Json.str "Space")
  , ("timeMs", Json.num 777), ("attempts", Json.num 2)
  , ("createdAt", Json.str "2024-01-02T00:00:00.000Z") ]

/-- Concrete valid legacy payload distinct from `payloadAlice`. -/
def payloadCarol : Json := Json.obj
  [ ("playerName", Json.str "Carol"), ("difficultyId", Json.str "hard")
  , ("difficultyLabel", Json.str "Hard"), ("emojiSetId", Json.str "flags")
  , ("emojiSetLabel", Json.str "Flags"), ("timeMs", Json.num 4321)
  , ("attempts", Json.num 9), ("scoreMultiplier", Json.num 2)
  , ("scoreValue", Json.num 999)
  , ("createdAt", Json.str "2024-01-03T00:00:00.000Z") ]

/-- Legacy document mixing two valid entries with one the normalizer
rejects (spec example scenario 2). -/
def docMixed : Json := Json.obj
  [("entries", Json.arr [payloadAlice, payloadNoName, payloadCarol])]

/-- Stored entry whose `difficultyLabel` contains the identity separator. -/
def entryStored3 : Entry :=
  ⟨"Dana", 2000, 4, "a", "b|c", "set", "Set", 1, 900, false,
    "2024-01-05T00:00:00.000Z"⟩

/-- Legacy payload whose normalized entry differs from `entryStored3` on the
`difficultyId`/`difficultyLabel` fields but produces the same pipe-joined
identity key. -/
def payloadColliding3 : Json := Json.obj
  [ ("playerName", Json.str "Dana"), ("timeMs", Json.num 2000)
  , ("attempts", Json.num 4), ("difficultyId", Json.str "a|b")
  , ("difficultyLabel", Json.str "c"), ("emojiSetId", Json.str "set")
  , ("emojiSetLabel", Json.str "Set"), ("scoreMultiplier", Json.num 1)
  , ("scoreValue", Json.num 900)
  , ("createdAt", Json.str "2024-01-05T00:00:00.000Z") ]

/-- The entry `payloadColliding3` normalizes to. -/
def entryColliding3 : Entry :=
  ⟨"Dana", 2000, 4, "a|b", "c", "set", "Set", 1, 900, false,
    "2024-01-05T00:00:00.000Z"⟩

/-- A store already holding `entryStored3`, with migration not yet run. -/
def store3 : Store :=
  { maxStoredEntries := 10
    rows := [⟨1, entryStored3⟩]
    nextId := 2
    migrationMeta := none
    cachedMigrationComplete := false }

/-- Legacy document holding only `payloadColliding3`. -/
def doc3 : Json := Json.obj [("entries", Json.arr [payloadColliding3])]

/-- Stored entry with a pipe inside `emojiSetId`. -/
def entryTen1 : Entry :=
  ⟨"Eve", 1, 1, "d", "D", "x|y", "z", 1, 10, false,
    "2024-01-06T00:00:00.000Z"⟩

/-- Entry that differs from `entryTen1` on `emojiSetId`/`emojiSetLabel` yet
shares its identity key. -/
def entryTen2 : Entry :=
  ⟨"Eve", 1, 1, "d", "D", "x", "y|z", 1, 10, false,
    "2024-01-06T00:00:00.000Z"⟩

/-- Legacy payload normalizing to `entryTen2`. -/
def payloadTen : Json := Json.obj
  [ ("playerName", Json.str "Eve"), ("timeMs", Json.num 1)
  , ("attempts", Json.num 1), ("difficultyId", Json.str "d")
  , ("difficultyLabel", Json.str "D"), ("emojiSetId", Json.str "x")
  , ("emojiSetLabel", Json.str "y|z"), ("scoreMultiplier", Json.num 1)
  , ("scoreValue", Json.num 10)
  , ("createdAt", Json.str "2024-01-06T00:00:00.000Z") ]

/-- A store already holding `entryTen1`, with migration not yet run. -/
def storeTen : Store :=
  { maxStoredEntries := 10
    rows := [⟨1, entryTen1⟩]
    nextId := 2
    migrationMeta := none
    cachedMigrationComplete := false }

/-- Legacy document holding only `payloadTen`. -/
def docTen : Json := Json.obj [("entries", Json.arr [payloadTen])]

/-- The entry `payloadCarol` normalizes to. -/
def entryCarol : Entry :=
  ⟨"Carol", 4321, 9, "hard", "Hard", "flags", "Flags", 2, 999, false,
    "2024-01-03T00:00:00.000Z"⟩

/-- Payload whose `createdAt` string is clearly not an ISO-8601 instant. -/
def payloadBadTimestamp : Json := Json.obj
  [ ("playerName", Json.str "Frank"), ("difficultyId", Json.str "easy")
  , ("difficultyLabel", Json.str "Easy"), ("emojiSetId", Json.str "space")
  , ("emojiSetLabel", Json.str "Space"), ("timeMs", Json.num 100)
  , ("attempts", Json.num 1)
  , ("createdAt", Json.str "definitely-not-a-timestamp") ]

/-- A store over its configured cap with migration already complete: the
state a store reopened with a lowered retention cap is in. -/
def storeOverCap : Store :=
  { maxStoredEntries := 1
    rows := [⟨1, entryAlice⟩, ⟨2, entryBravo⟩]
    nextId := 3
    migrationMeta := some "1"
    cachedMigrationComplete := true }

/-- The rows appended by a run of consecutive inserts starting at a given
surrogate id. -/
def attachIds : Nat → List Entry → List Row
  | _, [] => []
  | n, e :: es => ⟨n, e⟩ :: attachIds (n + 1) es

/-- Key-level version of the migration dedup loop, used to reason about the
number of surviving entries. -/
def dedupKeys (seen : List String) : List String → List String
  | [] => []
  | k :: rest =>
    if seen.contains k then dedupKeys seen rest
    else k :: dedupKeys (k :: seen) rest

theorem map_id_nodup_inj {l : List Row} (h : (l.map Row.id).Nodup) :
    ∀ {a b : Row}, a ∈ l → b ∈ l → a.id = b.id → a = b := by
  induction l with
  | nil =>
    intro a b ha _ _
    cases ha
  | cons x xs ih =>
    intro a b ha hb hid
    rw [List.map_cons, List.nodup_cons] at h
    rcases List.mem_cons.mp ha with rfl | ha2
    · rcases List.mem_cons.mp hb with rfl | hb2
      · rfl
      · exact absurd (hid ▸ List.mem_map_of_mem Row.id hb2) h.1
    · rcases List.mem_cons.mp hb with rfl | hb2
      · exact absurd (hid ▸ List.mem_map_of_mem Row.id ha2) h.1
      · exact ih h.2 ha2 hb2 hid

theorem sortByRecency_perm (rows : List Row) : List.Perm (sortByRecency rows) rows :=
  List.perm_insertionSort rowLe rows

theorem trimEntries_perm (cap : Nat) (rows : List Row)
    (h : (rows.map Row.id).Nodup) :
    List.Perm (trimEntries cap rows) ((sortByRecency rows).take cap) := by
  have hperm : List.Perm (sortByRecency rows) rows := sortByRecency_perm rows
  have hnd : rows.Nodup := List.Nodup.of_map Row.id h
  have hndS : (sortByRecency rows).Nodup := hperm.nodup_iff.mpr hnd
  have hmapS : ((sortByRecency rows).map Row.id).Nodup :=
    ((hperm.map Row.id).symm.nodup_iff).mp h
  have hndTrim : (trimEntries cap rows).Nodup :=
    (List.filter_sublist rows).nodup hnd
  have hndTake : ((sortByRecency rows).take cap).Nodup :=
    (List.take_sublist cap (sortByRecency rows)).nodup hndS
  refine (List.perm_ext_iff_of_nodup hndTrim hndTake).mpr ?_
  intro a
  have hmem :
      a ∈ trimEntries cap rows
        ↔ a ∈ rows ∧ a.id ∉ (((sortByRecency rows).map Row.id).drop cap) := by
    rw [trimEntries]
    simp
  rw [hmem]
  constructor
  · rintro ⟨har, hnid⟩
    have hdrop : a ∉ (sortByRecency rows).drop cap := by
      intro hd
      have hm : a.id ∈ ((sortByRecency rows).drop cap).map Row.id :=
        List.mem_map_of_mem Row.id hd
      rw [List.map_drop] at hm
      exact hnid hm
    have : a ∈ sortByRecency rows := hperm.mem_iff.mpr har
    rw [← List.take_append_drop cap (sortByRecency rows),
      List.mem_append] at this
    exact this.resolve_right hdrop
  · intro htake
    refine ⟨hperm.mem_iff.mp (List.mem_of_mem_take htake), fun hnid => ?_⟩
    rw [← List.map_drop, List.mem_map] at hnid
    rcases hnid with ⟨r2, hr2, hid⟩
    have hor : a = r2 :=
      map_id_nodup_inj hmapS (hperm.mem_iff.mpr
        (hperm.mem_iff.mp (List.mem_of_mem_take htake)))
        (List.mem_of_mem_drop hr2) hid.symm
    exact (List.disjoint_take_drop hndS (Nat.le_refl cap)) htake (hor ▸ hr2)

theorem trimEntries_length_le (cap : Nat) (rows : List Row)
    (h : (rows.map Row.id).Nodup) :
    (trimEntries cap rows).length ≤ cap := by
  rw [(trimEntries_perm cap rows h).length_eq, List.length_take]
  exact Nat.min_le_left _ _

theorem insertEntry_WF {s : Store} (e : Entry) (h : WF s) :
    WF (insertEntry s e) := by
  obtain ⟨h1, h2⟩ := h
  constructor
  · simp only [insertEntry, List.map_append, List.map_cons, List.map_nil]
    rw [List.nodup_append]
    refine ⟨h1, List.nodup_singleton _, ?_⟩
    intro a ha hb
    simp only [List.mem_singleton] at hb
    rcases List.mem_map.mp ha with ⟨r, hr, hid⟩
    exact absurd (hid ▸ hb ▸ h2 r hr) (Nat.lt_irrefl _)
  · intro r hr
    simp only [insertEntry, List.mem_append, List.mem_singleton] at hr
    rcases hr with hr | rfl
    · exact Nat.lt_trans (h2 r hr) (Nat.lt_succ_self _)
    · exact Nat.lt_succ_self _

theorem foldl_insertEntry_WF (batch : List Entry) (s : Store) (h : WF s) :
    WF (batch.foldl insertEntry s) := by
  induction batch generalizing s with
  | nil => exact h
  | cons e es ih => exact ih (insertEntry s e) (insertEntry_WF e h)

theorem foldl_insertEntry_spec (batch : List Entry) (s : Store) :
    (batch.foldl insertEntry s).rows = s.rows ++ attachIds s.nextId batch
      ∧ (batch.foldl insertEntry s).maxStoredEntries = s.maxStoredEntries := by
  induction batch generalizing s with
  | nil => simp [attachIds]
  | cons e es ih =>
    have h := ih (insertEntry s e)
    simp only [List.foldl_cons]
    refine ⟨?_, h.2⟩
    rw [h.1]
    simp [insertEntry, attachIds]


theorem dedupFilter_map_length (seen : List String) (es : List Entry) :
    (dedupFilter seen es).length
      = (dedupKeys seen (es.map createEntryIdentity)).length := by
  induction es generalizing seen with
  | nil => rfl
  | cons e rest ih =>
    rw [dedupFilter, List.map_cons, dedupKeys]
    by_cases hc : seen.contains (createEntryIdentity e) = true
    · rw [if_pos hc, if_pos hc]
      exact ih seen
    · rw [if_neg hc, if_neg hc, List.length_cons, List.length_cons,
        ih (createEntryIdentity e :: seen)]

theorem dedupKeys_length (seen keys : List String) :
    (dedupKeys seen keys).length
      = (keys.filter (fun x => !(seen.contains x))).toFinset.card := by
  induction keys generalizing seen with
  | nil => simp [dedupKeys]
  | cons k rest ih =>
    by_cases hc : seen.contains k = true
    · rw [dedupKeys, if_pos hc, List.filter_cons_of_neg (by simpa using hc)]
      exact ih seen
    · rw [dedupKeys, if_neg hc, List.filter_cons_of_pos (by simpa using hc),
        List.length_cons, List.toFinset_cons, ih (k :: seen)]
      have hL2 : ((rest.filter (fun x => !((k :: seen).contains x))).toFinset)
          = (rest.filter (fun x => !(seen.contains x))).toFinset.erase k := by
        ext x
        simp [List.contains_cons]
        tauto
      rw [hL2]
      generalize (rest.filter (fun x => !(seen.contains x))).toFinset = S
      have hnm : k ∉ S.erase k := Finset.not_mem_erase _ _
      have hins : insert k S = insert k (S.erase k) := by
        ext x
        simp only [Finset.mem_insert, Finset.mem_erase, ne_eq]
        tauto
      rw [hins, Finset.card_insert_of_not_mem hnm, Nat.add_comm]

theorem dedupFilter_length (seen : List String) (es : List Entry) :
    (dedupFilter seen es).length
      = ((es.map createEntryIdentity).filter
          (fun x => !(seen.contains x))).toFinset.card := by
  rw [dedupFilter_map_length, dedupKeys_length]

theorem migrate_of_cached {s : Store} (h : s.cachedMigrationComplete = true)
    (f : Option Json) (p : Json → Option Entry) (o : Option (Nat × String)) :
    migrateFromLegacyJson s f p o = (s, Except.ok 0) := by
  simp [migrateFromLegacyJson, h]

theorem migrate_missing_file (s : Store) (p : Json → Option Entry)
    (o : Option (Nat × String)) :
    migrateFromLegacyJson s none p o = (s, Except.ok 0) := by
  unfold migrateFromLegacyJson
  split <;> rfl

theorem migrate_not_cached_some {s : Store}
    (hc : s.cachedMigrationComplete = false) (doc : Json)
    (p : Json → Option Entry) (o : Option (Nat × String)) :
    migrateFromLegacyJson s (some doc) p o
      = match entriesOfDoc doc with
        | Except.error e => (s, Except.error e)
        | Except.ok raws =>
          match o with
          | some (k, msg) =>
            if k ≤ (migrationBatch s raws p).length + 1
            then (s, Except.error (wrapTxnError msg))
            else (commitMigration s (migrationBatch s raws p),
              Except.ok (migrationBatch s raws p).length)
          | none => (commitMigration s (migrationBatch s raws p),
              Except.ok (migrationBatch s raws p).length) := by
  unfold migrateFromLegacyJson
  rw [hc]
  simp

theorem commitMigration_cached (s : Store) (batch : List Entry) :
    (commitMigration s batch).cachedMigrationComplete = true :=
  rfl

theorem bool_not_true_eq_false {b : Bool} (h : ¬b = true) : b = false := by
  revert h
  cases b <;> simp

theorem migrate_ok_cases {s s2 : Store} {f : Option Json}
    {p : Json → Option Entry} {o : Option (Nat × String)} {n : Nat}
    (h : migrateFromLegacyJson s f p o = (s2, Except.ok n)) :
    (s2 = s ∧ n = 0) ∨
      ∃ doc raws, f = some doc ∧ entriesOfDoc doc = Except.ok raws ∧
        s2 = commitMigration s (migrationBatch s raws p) ∧
        n = (migrationBatch s raws p).length := by
  by_cases hc : s.cachedMigrationComplete = true
  · rw [migrate_of_cached hc] at h
    obtain ⟨h1, h2⟩ := Prod.mk.injEq .. ▸ h
    exact Or.inl ⟨h1.symm, (Except.ok.inj h2).symm⟩
  · rcases f with _ | doc
    · rw [migrate_missing_file] at h
      obtain ⟨h1, h2⟩ := Prod.mk.injEq .. ▸ h
      exact Or.inl ⟨h1.symm, (Except.ok.inj h2).symm⟩
    · rw [migrate_not_cached_some (bool_not_true_eq_false hc) doc p o] at h
      split at h
      · rename_i e heq
        obtain ⟨_, h2⟩ := Prod.mk.injEq .. ▸ h
        cases h2
      · rename_i raws heq
        split at h
        · rename_i k msg
          split at h
          · obtain ⟨_, h2⟩ := Prod.mk.injEq .. ▸ h
            cases h2
          · obtain ⟨h1, h2⟩ := Prod.mk.injEq .. ▸ h
            exact Or.inr ⟨doc, raws, rfl, heq, h1.symm, (Except.ok.inj h2).symm⟩
        · obtain ⟨h1, h2⟩ := Prod.mk.injEq .. ▸ h
          exact Or.inr ⟨doc, raws, rfl, heq, h1.symm, (Except.ok.inj h2).symm⟩

theorem migrate_some_ok_cached {s s2 : Store} {doc : Json}
    {p : Json → Option Entry} {o : Option (Nat × String)} {n : Nat}
    (h : migrateFromLegacyJson s (some doc) p o = (s2, Except.ok n)) :
    s2.cachedMigrationComplete = true := by
  by_cases hc : s.cachedMigrationComplete = true
  · rw [migrate_of_cached hc] at h
    obtain ⟨h1, _⟩ := Prod.mk.injEq .. ▸ h
    exact h1 ▸ hc
  · rw [migrate_not_cached_some (bool_not_true_eq_false hc) doc p o] at h
    split at h
    · rename_i e heq
      obtain ⟨_, h2⟩ := Prod.mk.injEq .. ▸ h
      cases h2
    · rename_i raws heq
      split at h
      · rename_i k msg
        split at h
        · obtain ⟨_, h2⟩ := Prod.mk.injEq .. ▸ h
          cases h2
        · obtain ⟨h1, _⟩ := Prod.mk.injEq .. ▸ h
          exact h1 ▸ commitMigration_cached ..
      · obtain ⟨h1, _⟩ := Prod.mk.injEq .. ▸ h
        exact h1 ▸ commitMigration_cached ..

/-- C1: migration is idempotent — once a `migrateFromLegacyJson` call against
a present legacy file has completed successfully, every subsequent call on
that store instance (with any file, normalizer and transaction outcome)
returns 0 and leaves the state, hence the stored rows, unchanged. -/
theorem migration_idempotent {s s2 : Store} {doc : Json}
    {p : Json → Option Entry} {o : Option (Nat × String)} {n : Nat}
    (h : migrateFromLegacyJson s (some doc) p o = (s2, Except.ok n)) :
    ∀ (f2 : Option Json) (p2 : Json → Option Entry)
      (o2 : Option (Nat × String)),
      migrateFromLegacyJson s2 f2 p2 o2 = (s2, Except.ok 0) :=
  fun f2 p2 o2 => migrate_of_cached (migrate_some_ok_cached h) f2 p2 o2

/-- Witness for C1: a concrete first migration inserts one row, and the
second call on the resulting store returns 0 with the state unchanged. -/
theorem migration_idempotent_witness :
    migrateFromLegacyJson (openFreshStore 5) (some docAlice) parseForMigration
        none = (storeAfterAlice, Except.ok 1)
    ∧ migrateFromLegacyJson storeAfterAlice (some docAlice) parseForMigration
        none = (storeAfterAlice, Except.ok 0) :=
  ⟨rfl, @migration_idempotent (openFreshStore 5) storeAfterAlice docAlice
    parseForMigration none 1 rfl (some docAlice) parseForMigration none⟩

/-- C5: a missing legacy file makes `migrateFromLegacyJson` return 0 and
leave the whole store state (rows, persisted flag, in-process cache)
unchanged, so a later call against a present file behaves exactly as if the
failed attempt had never happened. -/
theorem migration_missing_file_retries (s : Store) (p : Json → Option Entry)
    (o : Option (Nat × String)) :
    migrateFromLegacyJson s none p o = (s, Except.ok 0)
    ∧ ∀ (doc : Json) (p2 : Json → Option Entry) (o2 : Option (Nat × String)),
        migrateFromLegacyJson (migrateFromLegacyJson s none p o).1 (some doc)
            p2 o2
          = migrateFromLegacyJson s (some doc) p2 o2 := by
  refine ⟨migrate_missing_file s p o, fun doc p2 o2 => ?_⟩
  rw [migrate_missing_file s p o]

/-- C8: `readEntries limit` returns at most `limit` rows, at most the number
of stored rows, the result is ordered most-recently-created first
(non-increasing `createdAt`), and it is the length-`limit` initial segment of
the full recency-ordered listing of the store. -/
theorem readEntries_bound_and_order (s : Store) (limit : Nat) :
    (readEntries s limit).length ≤ limit
    ∧ (readEntries s limit).length ≤ s.rows.length
    ∧ List.Sorted (fun a b : Entry => b.createdAt.data ≤ a.createdAt.data)
        (readEntries s limit)
    ∧ readEntries s limit = (readEntries s s.rows.length).take limit := by
  refine ⟨?_, ?_, ?_, ?_⟩
  · rw [readEntries, List.length_map, List.length_take]
    exact Nat.min_le_left ..
  · rw [readEntries, List.length_map, List.length_take,
      (sortByRecency_perm s.rows).length_eq]
    exact Nat.min_le_right ..
  · have hs : List.Pairwise rowLe (sortByRecency s.rows) :=
      List.sorted_insertionSort rowLe s.rows
    have ht : List.Pairwise rowLe ((sortByRecency s.rows).take limit) :=
      List.Pairwise.sublist (List.take_sublist limit (sortByRecency s.rows)) hs
    exact List.Pairwise.map mapRowToEntry
      (fun a b hab => hab.elim le_of_lt (fun h2 => le_of_eq h2.1)) ht
  · rw [readEntries, readEntries,
      List.take_of_length_le (le_of_eq (sortByRecency_perm s.rows).length_eq),
      List.map_take]

/-- C2: retention invariant — after any `writeEntry`, and after any
successful `migrateFromLegacyJson` on a store already within its cap, the
row count is at most `maxStoredEntries` and the surviving rows are exactly
(as a multiset) the cap highest-ranked rows, under
`(created_at DESC, id DESC)`, of everything persisted before the trim. -/
theorem retention_invariant :
    (∀ (s : Store) (e : Entry), WF s →
      (writeEntry s e).rows.length ≤ s.maxStoredEntries
      ∧ List.Perm (writeEntry s e).rows
          ((sortByRecency (s.rows ++ [⟨s.nextId, e⟩])).take s.maxStoredEntries))
    ∧ (∀ (s : Store) (f : Option Json) (p : Json → Option Entry)
        (o : Option (Nat × String)) (s2 : Store) (n : Nat), WF s →
        s.rows.length ≤ s.maxStoredEntries →
        migrateFromLegacyJson s f p o = (s2, Except.ok n) →
        s2.rows.length ≤ s.maxStoredEntries
        ∧ ∃ newRows : List Row, List.Perm s2.rows
            ((sortByRecency (s.rows ++ newRows)).take s.maxStoredEntries)) := by
  constructor
  · intro s e hwf
    have hwf2 : WF (insertEntry s e) := insertEntry_WF e hwf
    have hwr : (writeEntry s e).rows
        = trimEntries s.maxStoredEntries (s.rows ++ [⟨s.nextId, e⟩]) := rfl
    rw [hwr]
    exact ⟨trimEntries_length_le s.maxStoredEntries
        (s.rows ++ [⟨s.nextId, e⟩]) hwf2.1,
      trimEntries_perm s.maxStoredEntries (s.rows ++ [⟨s.nextId, e⟩]) hwf2.1⟩
  · intro s f p o s2 n hwf hlen h
    rcases migrate_ok_cases h with ⟨heq, _⟩ | ⟨doc, raws, hf, hdoc, heq, hn⟩
    · rw [heq]
      refine ⟨hlen, [], ?_⟩
      rw [List.append_nil]
      have hlen2 : (sortByRecency s.rows).length ≤ s.maxStoredEntries := by
        rw [(sortByRecency_perm s.rows).length_eq]
        exact hlen
      rw [List.take_of_length_le hlen2]
      exact (sortByRecency_perm s.rows).symm
    · have hspec :=
        foldl_insertEntry_spec (migrationBatch s raws p) s
      have hwf2 : WF ((migrationBatch s raws p).foldl insertEntry s) :=
        foldl_insertEntry_WF (migrationBatch s raws p) s hwf
      have hnd2 : ((s.rows ++ attachIds s.nextId (migrationBatch s raws p)).map
          Row.id).Nodup := by
        rw [← hspec.1]
        exact hwf2.1
      have hrw : (commitMigration s (migrationBatch s raws p)).rows
          = trimEntries s.maxStoredEntries
              (s.rows ++ attachIds s.nextId (migrationBatch s raws p)) := by
        show trimEntries
            ((migrationBatch s raws p).foldl insertEntry s).maxStoredEntries
            ((migrationBatch s raws p).foldl insertEntry s).rows = _
        rw [hspec.1, hspec.2]
      rw [heq, hrw]
      exact ⟨trimEntries_length_le s.maxStoredEntries _ hnd2,
        attachIds s.nextId (migrationBatch s raws p),
        trimEntries_perm s.maxStoredEntries _ hnd2⟩

/-- Witness for C2: both halves of the retention invariant at a concrete
store with cap 1 — a write trims back to one row, and a migration that
imports an older entry trims back to the one most recent row. -/
theorem retention_invariant_witness :
    WF storeCapOne
    ∧ storeCapOne.rows.length ≤ storeCapOne.maxStoredEntries
    ∧ ((writeEntry storeCapOne entryAlice).rows.length
          ≤ storeCapOne.maxStoredEntries
        ∧ List.Perm (writeEntry storeCapOne entryAlice).rows
            ((sortByRecency (storeCapOne.rows
              ++ [⟨storeCapOne.nextId, entryAlice⟩])).take
              storeCapOne.maxStoredEntries))
    ∧ (storeCapOneMigrated.rows.length ≤ storeCapOne.maxStoredEntries
        ∧ ∃ newRows : List Row, List.Perm storeCapOneMigrated.rows
            ((sortByRecency (storeCapOne.rows ++ newRows)).take
              storeCapOne.maxStoredEntries)) :=
  ⟨by decide, by decide,
    retention_invariant.1 storeCapOne entryAlice (by decide),
    retention_invariant.2 storeCapOne (some docAlice) parseForMigration none
      storeCapOneMigrated 1 (by decide) (by decide) rfl⟩

/-- C4: a failure injected at any step inside the migration transaction
(an insert, the trim, or the flag upsert) makes `migrateFromLegacyJson`
re-throw the error wrapped with migration context while the store state —
rows, persisted flag and in-process cache — is exactly the pre-call state;
a subsequent call on that unchanged state performs the entire migration and
ends with the in-process cache set. -/
theorem migration_txn_failure_atomic {s : Store} {doc : Json}
    {p : Json → Option Entry} {raws : List Json} (k : Nat) (msg : String)
    (hc : s.cachedMigrationComplete = false)
    (hdoc : entriesOfDoc doc = Except.ok raws)
    (hk : k ≤ (migrationBatch s raws p).length + 1) :
    migrateFromLegacyJson s (some doc) p (some (k, msg))
        = (s, Except.error (wrapTxnError msg))
    ∧ migrateFromLegacyJson s (some doc) p none
        = (commitMigration s (migrationBatch s raws p),
            Except.ok (migrationBatch s raws p).length)
    ∧ (commitMigration s (migrationBatch s raws p)).cachedMigrationComplete
        = true := by
  refine ⟨?_, ?_, commitMigration_cached ..⟩
  · rw [migrate_not_cached_some hc doc p (some (k, msg)), hdoc]
    simp [hk]
  · rw [migrate_not_cached_some hc doc p none, hdoc]

/-- Witness for C4: a concrete injected failure at the first insert rolls the
migration back and wraps the error; the retry commits one row. -/
theorem migration_txn_failure_atomic_witness :
    (openFreshStore 5).cachedMigrationComplete = false
    ∧ entriesOfDoc docAlice = Except.ok [payloadAlice]
    ∧ 0 ≤ (migrationBatch (openFreshStore 5) [payloadAlice]
          parseForMigration).length + 1
    ∧ migrateFromLegacyJson (openFreshStore 5) (some docAlice)
          parseForMigration (some (0, "SQLITE_FULL: database or disk is full"))
        = (openFreshStore 5, Except.error
            (wrapTxnError "SQLITE_FULL: database or disk is full")) :=
  ⟨rfl, rfl, Nat.zero_le _,
    (@migration_txn_failure_atomic (openFreshStore 5) docAlice
      parseForMigration [payloadAlice] 0
      "SQLITE_FULL: database or disk is full" rfl rfl (Nat.zero_le _)).1⟩

theorem filterMap_filter_isSome {p : Json → Option Entry} (l : List Json) :
    (l.filter (fun r => (p r).isSome)).filterMap p = l.filterMap p := by
  induction l with
  | nil => rfl
  | cons r rest ih =>
    cases hr : p r with
    | none =>
      rw [List.filter_cons_of_neg (by simp [hr]), List.filterMap_cons, hr, ih]
    | some e =>
      rw [List.filter_cons_of_pos (by simp [hr]), List.filterMap_cons, hr,
        List.filterMap_cons, hr, ih]

/-- C7: when the legacy entries array mixes entries the normalizer accepts
with entries it rejects, the migration behaves exactly as if the rejected
entries were absent from the file — they are dropped without aborting the
call, which still succeeds — and only accepted entries are counted. -/
theorem migration_malformed_tolerant {s : Store} {doc : Json}
    {p : Json → Option Entry} {raws : List Json}
    (hc : s.cachedMigrationComplete = false)
    (hdoc : entriesOfDoc doc = Except.ok raws) :
    migrateFromLegacyJson s (some doc) p none
      = migrateFromLegacyJson s
          (some (Json.obj [("entries",
            Json.arr (raws.filter (fun r => (p r).isSome)))])) p none
    ∧ ∃ n, (migrateFromLegacyJson s (some doc) p none).2 = Except.ok n := by
  have hdoc2 : entriesOfDoc (Json.obj [("entries",
      Json.arr (raws.filter (fun r => (p r).isSome)))])
      = Except.ok (raws.filter (fun r => (p r).isSome)) := rfl
  have hb : migrationBatch s raws p
      = migrationBatch s (raws.filter (fun r => (p r).isSome)) p := by
    rw [migrationBatch, migrationBatch, filterMap_filter_isSome]
  constructor
  · rw [migrate_not_cached_some hc doc p none, hdoc,
      migrate_not_cached_some hc _ p none, hdoc2]
    exact congrArg
      (fun b => (commitMigration s b, Except.ok b.length)) hb
  · rw [migrate_not_cached_some hc doc p none, hdoc]
    exact ⟨(migrationBatch s raws p).length, rfl⟩

/-- Witness for C7: spec scenario 2 — a legacy file [Alice, no-name, Carol]
migrates the two valid entries, returns 2, and equals the migration of the
file with the malformed entry removed. -/
theorem migration_malformed_tolerant_witness :
    (openFreshStore 10).cachedMigrationComplete = false
    ∧ entriesOfDoc docMixed
        = Except.ok [payloadAlice, payloadNoName, payloadCarol]
    ∧ (migrateFromLegacyJson (openFreshStore 10) (some docMixed)
          parseForMigration none
        = migrateFromLegacyJson (openFreshStore 10)
            (some (Json.obj [("entries", Json.arr
              ([payloadAlice, payloadNoName, payloadCarol].filter
                (fun r => (parseForMigration r).isSome)))]))
            parseForMigration none
      ∧ ∃ n, (migrateFromLegacyJson (openFreshStore 10) (some docMixed)
          parseForMigration none).2 = Except.ok n)
    ∧ (migrateFromLegacyJson (openFreshStore 10) (some docMixed)
        parseForMigration none).2 = Except.ok 2 :=
  ⟨rfl, rfl,
    @migration_malformed_tolerant (openFreshStore 10) docMixed
      parseForMigration [payloadAlice, payloadNoName, payloadCarol] rfl rfl,
    rfl⟩

theorem entriesOfDoc_of_no_arr {doc : Json} (hnull : doc ≠ Json.null)
    (hne : hasEntriesArr doc = false) : entriesOfDoc doc = Except.ok [] := by
  cases doc with
  | null => exact absurd rfl hnull
  | obj kvs =>
    rw [entriesOfDoc]
    rw [hasEntriesArr] at hne
    cases hk : kvs.lookup "entries" with
    | none => rfl
    | some v =>
      rw [hk] at hne
      cases v with
      | arr es => cases hne
      | null => rfl
      | bool b => rfl
      | num q => rfl
      | str t => rfl
      | obj kvs2 => rfl
  | bool b => rfl
  | num q => rfl
  | str t => rfl
  | arr es => rfl

/-- C6 (amended): for a non-null parsed legacy document, a missing or
non-array `entries` field is treated as an empty list — the call succeeds
with 0 imported entries (committing the empty batch: trim plus flag update);
a document whose JSON content is `null`, however, throws a TypeError at the
`parsed.entries` access (see the counterexample). -/
theorem migration_shape_tolerant {s : Store} {doc : Json}
    {p : Json → Option Entry} (hc : s.cachedMigrationComplete = false)
    (hnull : doc ≠ Json.null) (hne : hasEntriesArr doc = false) :
    migrateFromLegacyJson s (some doc) p none
      = (commitMigration s [], Except.ok 0) := by
  rw [migrate_not_cached_some hc doc p none,
    entriesOfDoc_of_no_arr hnull hne]
  rfl

/-- Counterexample for C6: an existing legacy file whose JSON document is
`null` makes the call fail with a TypeError instead of being treated as an
empty entry list — so not every document shape is tolerated. -/
theorem migration_shape_tolerant_counterexample :
    (openFreshStore 100).cachedMigrationComplete = false
    ∧ (migrateFromLegacyJson (openFreshStore 100) (some Json.null)
          parseForMigration none).2
        = Except.error
            "TypeError: Cannot read properties of null (reading 'entries')" :=
  ⟨rfl, rfl⟩

/-- Witness for C6: an object document whose `entries` field is the string
"invalid" (one of the repository test cases) migrates as an empty list. -/
theorem migration_shape_tolerant_witness :
    (openFreshStore 3).cachedMigrationComplete = false
    ∧ (Json.obj [("entries", Json.str "invalid")] ≠ Json.null)
    ∧ hasEntriesArr (Json.obj [("entries", Json.str "invalid")]) = false
    ∧ migrateFromLegacyJson (openFreshStore 3)
          (some (Json.obj [("entries", Json.str "invalid")]))
          parseForMigration none
        = (commitMigration (openFreshStore 3) [], Except.ok 0) :=
  ⟨rfl, fun h => Json.noConfusion h, rfl,
    @migration_shape_tolerant (openFreshStore 3)
      (Json.obj [("entries", Json.str "invalid")]) parseForMigration rfl
      (fun h => Json.noConfusion h) rfl⟩

/-- C3 (amended): a successful migration against a present legacy file
returns the number of distinct identity keys among the normalized entries
that do not already occur among the identity keys of the stored rows —
dedup matching is by the pipe-joined identity key, which can conflate
entries whose field tuples differ around the separator (see the
counterexample), not by equality of the eleven fields themselves. -/
theorem migration_dedup_count {s : Store} {doc : Json}
    {p : Json → Option Entry} {raws : List Json}
    (hc : s.cachedMigrationComplete = false)
    (hdoc : entriesOfDoc doc = Except.ok raws) :
    (migrateFromLegacyJson s (some doc) p none).2
      = Except.ok ((((raws.filterMap p).map createEntryIdentity).filter
          (fun x => !((storedIdentitySet s).contains x))).toFinset.card) := by
  rw [migrate_not_cached_some hc doc p none, hdoc]
  show Except.ok (migrationBatch s raws p).length = _
  rw [migrationBatch, dedupFilter_length]

/-- Witness for C3: migrating the mixed document into a fresh store counts
the two distinct new identity keys. -/
theorem migration_dedup_count_witness :
    (openFreshStore 7).cachedMigrationComplete = false
    ∧ entriesOfDoc docMixed
        = Except.ok [payloadAlice, payloadNoName, payloadCarol]
    ∧ (migrateFromLegacyJson (openFreshStore 7) (some docMixed)
          parseForMigration none).2
        = Except.ok
          (((([payloadAlice, payloadNoName, payloadCarol].filterMap
              parseForMigration).map createEntryIdentity).filter
            (fun x => !((storedIdentitySet (openFreshStore 7)).contains
              x))).toFinset.card)
    ∧ ((([payloadAlice, payloadNoName, payloadCarol].filterMap
          parseForMigration).map createEntryIdentity).filter
          (fun x => !((storedIdentitySet (openFreshStore 7)).contains
            x))).toFinset.card = 2 :=
  ⟨rfl, rfl,
    @migration_dedup_count (openFreshStore 7) docMixed parseForMigration
      [payloadAlice, payloadNoName, payloadCarol] rfl rfl,
    by decide⟩

/-- Counterexample for C3: one legacy entry that passes normalization and
matches no stored row on the eleven fields (so N = 1, M = 0), yet migration
inserts nothing and returns 0 because its pipe-joined identity key collides
with a stored row whose fields differ. -/
theorem migration_dedup_count_counterexample :
    entriesOfDoc doc3 = Except.ok [payloadColliding3]
    ∧ [payloadColliding3].filterMap parseForMigration = [entryColliding3]
    ∧ (∀ r ∈ store3.rows, mapRowToEntry r ≠ entryColliding3)
    ∧ (migrateFromLegacyJson store3 (some doc3) parseForMigration none).2
        = Except.ok 0
    ∧ (0 : Nat) ≠ 1 - 0 :=
  ⟨rfl, rfl, by decide, rfl, by decide⟩

/-- C10: the identity-key function is not injective — two entries that
differ in their semantic fields (the pipe separator moved between adjacent
string fields) share one identity key, and migration dedup therefore skips
a legacy entry that equals no stored row on the eleven fields. -/
theorem identity_key_not_injective :
    createEntryIdentity entryTen1 = createEntryIdentity entryTen2
    ∧ entryTen1 ≠ entryTen2
    ∧ entriesOfDoc docTen = Except.ok [payloadTen]
    ∧ [payloadTen].filterMap parseForMigration = [entryTen2]
    ∧ (∀ r ∈ storeTen.rows, mapRowToEntry r ≠ entryTen2)
    ∧ (migrateFromLegacyJson storeTen (some docTen) parseForMigration none).2
        = Except.ok 0 :=
  ⟨rfl, by decide, rfl, rfl, by decide, rfl⟩

theorem pNNI_getD_nonneg (v : Option Json) :
    0 ≤ (parseNonNegativeInteger v).getD 0 := by
  cases v with
  | none => exact le_refl 0
  | some j =>
    cases j with
    | num q => exact le_max_left 0 (jsRound q)
    | null => exact le_refl 0
    | bool b => exact le_refl 0
    | str t => exact le_refl 0
    | arr l => exact le_refl 0
    | obj kvs => exact le_refl 0

theorem scoreMultiplierField_nonneg (payload : Json) :
    0 ≤ scoreMultiplierField payload := by
  rw [scoreMultiplierField]
  cases hm : jsProp payload "scoreMultiplier" with
  | none => exact zero_le_one
  | some j =>
    cases j with
    | num q => exact le_max_left 0 q
    | null => exact zero_le_one
    | bool b => exact zero_le_one
    | str t => exact zero_le_one
    | arr l => exact zero_le_one
    | obj kvs => exact zero_le_one

theorem scoreValueField_nonneg (payload : Json) :
    0 ≤ scoreValueField payload := by
  rw [scoreValueField]
  cases hm : jsProp payload "scoreValue" with
  | none => exact le_refl 0
  | some j =>
    cases j with
    | num q => exact le_max_left 0 (jsRound q)
    | null => exact le_refl 0
    | bool b => exact le_refl 0
    | str t => exact le_refl 0
    | arr l => exact le_refl 0
    | obj kvs => exact le_refl 0

theorem strField_ne_empty_of_valid {payload : Json}
    (hinv : (invalidFieldsOf payload).isEmpty = true) :
    strField payload "playerName" ≠ "" := by
  intro h0
  have hnil : invalidFieldsOf payload = [] := by
    simpa using hinv
  rw [invalidFieldsOf] at hnil
  simp only [List.append_eq_nil] at hnil
  have h1 := hnil.1
  rw [h0] at h1
  simp at h1

theorem createdAtField_cases (payload : Json) (a : Bool) (now : String) :
    createdAtField payload a now = now
      ∨ (a = true ∧ ∃ str, jsProp payload "createdAt" = some (Json.str str)
          ∧ createdAtField payload a now = jsTrim str
          ∧ (jsTrim str).length > 0) := by
  rw [createdAtField]
  cases hm : jsProp payload "createdAt" with
  | none => exact Or.inl rfl
  | some j =>
    cases j with
    | str t =>
      by_cases hcond : a = true ∧ (jsTrim t).length > 0
      · exact Or.inr ⟨hcond.1, t, rfl, if_pos hcond, hcond.2⟩
      · exact Or.inl (if_neg hcond)
    | null => exact Or.inl rfl
    | bool b => exact Or.inl rfl
    | num q => exact Or.inl rfl
    | arr l => exact Or.inl rfl
    | obj kvs => exact Or.inl rfl

/-- C9 (amended): every entry the normalizer returns has non-negative
`timeMs`, `attempts`, `scoreMultiplier` and `scoreValue` and a non-empty
player name, and its creation timestamp is either the generated current-time
ISO string or the trimmed payload-supplied non-empty `createdAt` string —
which is accepted without any ISO-8601 validation (see the
counterexample). -/
theorem parse_entry_postconditions {payload : Json} {a : Bool} {now : String}
    {e : Entry}
    (h : parseLeaderboardPayloadEntry payload a now = Except.ok e) :
    0 ≤ e.timeMs ∧ 0 ≤ e.attempts ∧ 0 ≤ e.scoreMultiplier ∧ 0 ≤ e.scoreValue
    ∧ e.playerName ≠ ""
    ∧ (e.createdAt = now
        ∨ (a = true ∧ ∃ str, jsProp payload "createdAt" = some (Json.str str)
            ∧ e.createdAt = jsTrim str ∧ (jsTrim str).length > 0)) := by
  unfold parseLeaderboardPayloadEntry at h
  split at h
  · exact Except.noConfusion h
  · split at h
    · rename_i hinv
      have he := Except.ok.inj h
      subst he
      exact ⟨pNNI_getD_nonneg _, pNNI_getD_nonneg _,
        scoreMultiplierField_nonneg payload, scoreValueField_nonneg payload,
        strField_ne_empty_of_valid hinv, createdAtField_cases payload a now⟩
    · exact Except.noConfusion h

/-- Witness for C9: the normalizer accepts `payloadCarol` and the resulting
entry satisfies the amended postconditions. -/
theorem parse_entry_postconditions_witness :
    parseLeaderboardPayloadEntry payloadCarol true "2024-03-03T03:03:03.000Z"
        = Except.ok entryCarol
    ∧ (0 ≤ entryCarol.timeMs ∧ 0 ≤ entryCarol.attempts
        ∧ 0 ≤ entryCarol.scoreMultiplier ∧ 0 ≤ entryCarol.scoreValue
        ∧ entryCarol.playerName ≠ ""
        ∧ (entryCarol.createdAt = "2024-03-03T03:03:03.000Z"
            ∨ (true = true ∧ ∃ str, jsProp payloadCarol "createdAt"
                  = some (Json.str str)
                ∧ entryCarol.createdAt = jsTrim str
                ∧ (jsTrim str).length > 0))) :=
  ⟨rfl, @parse_entry_postconditions payloadCarol true
    "2024-03-03T03:03:03.000Z" entryCarol rfl⟩

/-- Counterexample for C9: the normalizer accepts a payload whose `createdAt`
is "definitely-not-a-timestamp" and returns it as the entry timestamp, which
is not a valid ISO-8601 instant — the claimed timestamp-validity
postcondition does not hold. -/
theorem parse_entry_postconditions_counterexample :
    (parseLeaderboardPayloadEntry payloadBadTimestamp true
        "2024-03-03T03:03:03.000Z").map Entry.createdAt
      = Except.ok "definitely-not-a-timestamp"
    ∧ specIsIso8601Instant "definitely-not-a-timestamp" = false :=
  ⟨rfl, rfl⟩

/-- Counterexample for C2: on a store already over its cap (e.g. reopened
with a lowered retention setting) whose migration is cached as complete, a
`migrateFromLegacyJson` call succeeds with 0 insertions but runs no trim, so
the row count still exceeds the cap after the successful call. -/
theorem retention_invariant_counterexample :
    migrateFromLegacyJson storeOverCap (some docAlice) parseForMigration none
        = (storeOverCap, Except.ok 0)
    ∧ storeOverCap.rows.length > storeOverCap.maxStoredEntries :=
  ⟨rfl, by decide⟩

end MB
